import Mathlib

set_option maxRecDepth 100000

/-!
# Verification of the rust-gs1 EPC binary decoding core

A shallow embedding of the `rust-gs1` repository's EPC decoding engine
(`src/epc/mod.rs`, `src/epc/sgtin.rs`, `src/epc/sscc.rs`, `src/epc/gid.rs`,
`src/epc/grai.rs`, `src/epc/util.rs`, `src/util.rs`, `src/checksum.rs`),
together with theorems settling the specification's claims about it.

Machine integers are modelled as `Nat`; wrapping of the `u16` accumulators
in the checksum engine is made explicit with `% 65536`.  A Rust `panic!`
(or a failed `unwrap`, or an out-of-bounds index) is modelled by the
`DResult.abort` outcome, distinct from an ordinary `Err` result.
-/

/-- Errors surfaced as `Err` values by the library (boxed `dyn Error` values
in the source): the unknown-header `TryFromPrimitive` conversion error, the
explicit `UnimplementedError`, the bit-reader errors (`NotEnoughData`,
`TooManyBitsForType`), the integer parse error from `str::parse::<u64>`, and
the string error `"Invalid partition value"` returned by the GRAI partition
decoder. -/
inductive GsError where
  | headerInvalid
  | unimplemented
  | notEnoughData
  | tooManyBits
  | intParse
  | invalidPartition
deriving DecidableEq, Repr

/-- Outcome of running a piece of the Rust code: an `Ok` value, an `Err`
value, or an unrecoverable abort (`panic!`, a failed `unwrap`, or an
out-of-bounds slice index). -/
inductive DResult (α : Type) where
  | ok (a : α)
  | err (e : GsError)
  | abort
deriving DecidableEq, Repr

/-- Sequencing of fallible Rust computations (the `?` operator); a panic in
an earlier step propagates through all callers. -/
def DResult.bind {α β : Type} : DResult α → (α → DResult β) → DResult β
  | .ok a, f => f a
  | .err e, _ => .err e
  | .abort, _ => .abort

/-- The sequential bit-level reader from the `bitreader` crate: a byte
buffer together with a position measured in bits. -/
structure BitReader where
  data : List Nat
  pos : Nat
deriving DecidableEq, Repr

/-- Bit `i` of the buffer, counting most-significant-bit first within each
byte (the `bitreader` crate's convention). -/
def bitAt (data : List Nat) (i : Nat) : Nat :=
  data.getD (i / 8) 0 / 2 ^ (7 - i % 8) % 2

/-- The value of the `n` bits starting at bit position `pos`,
most-significant-bit first. -/
def readBitsAt (data : List Nat) (pos n : Nat) : Nat :=
  (List.range n).foldl (fun acc j => acc * 2 + bitAt data (pos + j)) 0

/-- `BitReader::remaining`: the number of unread bits. -/
def BitReader.remaining (r : BitReader) : Nat :=
  r.data.length * 8 - r.pos

/-- The common core of the `bitreader` read functions: check that `n` bits
remain, read them MSB-first, and advance the position. -/
def BitReader.read_uint (r : BitReader) (n : Nat) : DResult (Nat × BitReader) :=
  if n ≤ r.remaining then .ok (readBitsAt r.data r.pos n, ⟨r.data, r.pos + n⟩)
  else .err .notEnoughData

/-- `BitReader::read_u8` (at most 8 bits fit the result type). -/
def BitReader.read_u8 (r : BitReader) (n : Nat) : DResult (Nat × BitReader) :=
  if n ≤ 8 then r.read_uint n else .err .tooManyBits

/-- `BitReader::read_u32` (at most 32 bits fit the result type). -/
def BitReader.read_u32 (r : BitReader) (n : Nat) : DResult (Nat × BitReader) :=
  if n ≤ 32 then r.read_uint n else .err .tooManyBits

/-- `BitReader::read_u64` (at most 64 bits fit the result type). -/
def BitReader.read_u64 (r : BitReader) (n : Nat) : DResult (Nat × BitReader) :=
  if n ≤ 64 then r.read_uint n else .err .tooManyBits

/-- The character for the decimal digit `n` (`char::from_digit`). -/
def digitChar (n : Nat) : Char :=
  Char.ofNat (48 + n)

/-- Fuel-driven accumulator for the decimal rendering of a natural number;
mirrors the digit-by-digit loop behind Rust's `u64`/`u8` `Display`. -/
def natDigsAux : Nat → Nat → List Char → List Char
  | 0, _, acc => acc
  | fuel + 1, n, acc =>
    let acc2 := digitChar (n % 10) :: acc
    if n < 10 then acc2 else natDigsAux fuel (n / 10) acc2

/-- Rust's `to_string()` on an unsigned integer: the decimal rendering,
with no leading zeros and `"0"` for zero. -/
def natRepr (n : Nat) : String :=
  String.mk (natDigsAux (n + 1) n [])

/-- `pad::PadStr::pad(digits, '0', Alignment::Right, false)` as used by
`zero_pad`: left-fill with `'0'` up to `digits` characters; a longer input
is returned unchanged (truncation is off). -/
def zero_pad (input : String) (digits : Nat) : String :=
  if digits ≤ input.length then input
  else String.mk (List.replicate (digits - input.length) '0') ++ input

/-- `char::to_digit(10)`: the digit value for `'0'..='9'`, `none` otherwise. -/
def char_to_digit (c : Char) : Option Nat :=
  if 48 ≤ c.toNat ∧ c.toNat ≤ 57 then some (c.toNat - 48) else none

/-- Whether a character is an ASCII decimal digit. -/
def isDigitChar (c : Char) : Bool :=
  48 ≤ c.toNat && c.toNat ≤ 57

/-- The value of a most-significant-first list of decimal digit characters. -/
def digitsVal (cs : List Char) : Nat :=
  cs.foldl (fun a c => a * 10 + (c.toNat - 48)) 0

/-- Rust's `str::parse::<u64>()`: accepts an optional leading `'+'` followed
by at least one decimal digit, and fails on the empty string, on any
non-digit character, and on overflow past `u64::MAX`. -/
def parseU64 (s : String) : Option Nat :=
  let cs := if s.toList.head? = some '+' then s.toList.tail else s.toList
  if cs = [] then none
  else if cs.all isDigitChar then
    if digitsVal cs < 2 ^ 64 then some (digitsVal cs) else none
  else none

/-! ## `src/checksum.rs` -/

/-- `int_digits`: the digit values of the characters of the input.  The
source calls `to_digit(10).unwrap()`, which aborts on a non-digit
character; every claim about the checksum restricts to all-digit strings,
on which `c.toNat - 48` agrees with the source. -/
def int_digits (input : String) : List Nat :=
  input.toList.map fun c => c.toNat - 48

/-- The accumulation loop of `gs1_checksum`: the source iterates
`i = 1 ..= len` over `digits[len - i]`, i.e. walks the reversed digit list,
adding elements at odd positions (1st, 3rd, ...) to `odd` and the others to
`even`.  Both accumulators are `u16` in the source, so every addition wraps
modulo `2^16` (release-profile semantics). -/
def checksum_loop : List Nat → Bool → Nat → Nat → Nat × Nat
  | [], _, odd, even => (odd, even)
  | d :: ds, oddPos, odd, even =>
    if oddPos then checksum_loop ds false ((odd + d) % 65536) even
    else checksum_loop ds true odd ((even + d) % 65536)

/-- `gs1_checksum` from `src/checksum.rs`: the GS1 mod-10 check digit,
computed with `u16` accumulators (`3 * odd + even` also wraps modulo
`2^16`). -/
def gs1_checksum (input : String) : Nat :=
  let digits := int_digits input
  let oe := checksum_loop digits.reverse true 0 0
  let check := (3 * oe.1 % 65536 + oe.2) % 65536 % 10
  if 0 < check then 10 - check else check

/-- Modelled from the spec (§4.6): the pair of positional digit sums of a
list whose head is position 1 — the first component sums odd positions
(1st, 3rd, ...), the second sums even positions. -/
def posSums : List Nat → Nat × Nat
  | [] => (0, 0)
  | d :: ds => ((posSums ds).2 + d, (posSums ds).1)

/-- Modelled from the spec (§4.6): the sum of the digits at odd positions
counted from the rightmost digit of the string. -/
def oddSum (s : String) : Nat :=
  (posSums (int_digits s).reverse).1

/-- Modelled from the spec (§4.6): the sum of the digits at even positions
counted from the rightmost digit of the string. -/
def evenSum (s : String) : Nat :=
  (posSums (int_digits s).reverse).2

/-- Modelled from the spec (§4.6): the GS1 mod-10 check digit as the spec
states it, with unbounded arithmetic:
`check = (3*oddSum + evenSum) mod 10`, result `10 - check` when positive. -/
def gs1_spec_digit (s : String) : Nat :=
  let check := (3 * oddSum s + evenSum s) % 10
  if 0 < check then 10 - check else 0

/-! ## `src/epc/util.rs` and `src/util.rs` -/

/-- The loop body of `read_string`: read `count` seven-bit characters,
keeping (in order) the ASCII character of each whose raw value is
non-zero. -/
def readStringChars : Nat → BitReader → DResult (List Char)
  | 0, _ => .ok []
  | count + 1, r =>
    (r.read_u8 7).bind fun vr =>
      (readStringChars count vr.2).bind fun rest =>
        .ok (if vr.1 ≠ 0 then Char.ofNat vr.1 :: rest else rest)

/-- `read_string` from `src/epc/util.rs`: read
`min(remaining_bits, bits) / 7` seven-bit characters, dropping those whose
raw value is zero (GS1 EPC TDS Section 14.4.2). -/
def read_string (r : BitReader) (bits : Nat) : DResult String :=
  let num_chars := min r.remaining bits / 7
  (readStringChars num_chars r).bind fun cs => .ok (String.mk cs)

/-- An ASCII alphanumeric byte, as classified by the `percent_encoding`
crate's `NON_ALPHANUMERIC` set. -/
def isAsciiAlphanum (c : Char) : Bool :=
  (48 ≤ c.toNat && c.toNat ≤ 57) ||
  (65 ≤ c.toNat && c.toNat ≤ 90) ||
  (97 ≤ c.toNat && c.toNat ≤ 122)

/-- Upper-case hexadecimal digit, as emitted by `percent_encoding`. -/
def hexDigitChar (n : Nat) : Char :=
  if n < 10 then Char.ofNat (48 + n) else Char.ofNat (55 + n)

/-- The UTF-8 bytes of a character (`utf8_percent_encode` works on the
UTF-8 byte representation of its input). -/
def utf8Bytes (c : Char) : List Nat :=
  let n := c.toNat
  if n < 128 then [n]
  else if n < 2048 then [192 + n / 64, 128 + n % 64]
  else if n < 65536 then [224 + n / 4096, 128 + n / 64 % 64, 128 + n % 64]
  else [240 + n / 262144, 128 + n / 4096 % 64, 128 + n / 64 % 64, 128 + n % 64]

/-- `uri_encode` from `src/epc/util.rs`:
`utf8_percent_encode(&input, NON_ALPHANUMERIC)` — every non-alphanumeric
byte is rendered as `%XX` with upper-case hex digits. -/
def uri_encode (input : String) : String :=
  String.mk (input.toList.flatMap fun c =>
    if isAsciiAlphanum c then [c]
    else (utf8Bytes c).flatMap fun b => ['%', hexDigitChar (b / 16), hexDigitChar (b % 16)])

/-- `extract_indicator` from `src/util.rs`: zero-pad the decimal rendering
of `item` on the left to `item_digits` characters; the first character
(`unwrap` aborts if it is missing or not a digit) is the indicator digit,
and the remaining characters re-parsed as a `u64` are the item value
(`?` on a failed parse yields an `Err`). -/
def extract_indicator (item : Nat) (item_digits : Nat) : DResult (Nat × Nat) :=
  let item_str := zero_pad (natRepr item) item_digits
  match item_str.toList with
  | [] => .abort
  | c :: rest =>
    match char_to_digit c with
    | none => .abort
    | some indicator =>
      match parseU64 (String.mk rest) with
      | none => .err .intParse
      | some item2 => .ok (item2, indicator)

/-! ## `src/epc/sgtin.rs` -/

/-- The SGTIN-96 identifier structure. -/
structure SGTIN96 where
  filter : Nat
  partition : Nat
  indicator : Nat
  company : Nat
  item : Nat
  serial : Nat
deriving DecidableEq, Repr

/-- The SGTIN-198 identifier structure (alphanumeric serial). -/
structure SGTIN198 where
  filter : Nat
  partition : Nat
  indicator : Nat
  company : Nat
  item : Nat
  serial : String
deriving DecidableEq, Repr

/-- `sgtin_company_digits` (GS1 EPC TDS Table 14-2): decimal digit count of
the company prefix.  The source computes `12 - partition` on `usize`; the
partition field is 3 bits, so the subtraction never underflows. -/
def sgtin_company_digits (partition : Nat) : Nat :=
  12 - partition

/-- `sgtin_item_digits`: the item reference digit count,
`13 - sgtin_company_digits`. -/
def sgtin_item_digits (partition : Nat) : Nat :=
  13 - sgtin_company_digits partition

/-- `partition_bits` from `src/epc/sgtin.rs` (GS1 EPC TDS Table 14-2):
company-prefix and item-reference bit widths.  On any partition value
outside `0..=6` the source executes `panic!("Invalid partition value: ..")`,
modelled as `.abort`. -/
def sgtin_partition_bits (partition : Nat) : DResult (Nat × Nat) :=
  match partition with
  | 0 => .ok (40, 4)
  | 1 => .ok (37, 7)
  | 2 => .ok (34, 10)
  | 3 => .ok (30, 14)
  | 4 => .ok (27, 17)
  | 5 => .ok (24, 20)
  | 6 => .ok (20, 24)
  | _ => .abort

/-- `extract_indicator` from `src/epc/sgtin.rs`: identical body to the
`src/util.rs` version, with the digit count fixed to
`sgtin_item_digits(partition)`. -/
def sgtin_extract_indicator (item : Nat) (partition : Nat) : DResult (Nat × Nat) :=
  extract_indicator item (sgtin_item_digits partition)

/-- `SGTIN96::to_uri` (GS1 EPC TDS section 6.3.1). -/
def SGTIN96.to_uri (s : SGTIN96) : String :=
  "urn:epc:id:sgtin:" ++
    zero_pad (natRepr s.company) (sgtin_company_digits s.partition) ++ "." ++
    natRepr s.indicator ++
    zero_pad (natRepr s.item) (sgtin_item_digits s.partition - 1) ++ "." ++
    natRepr s.serial

/-- `SGTIN96::to_tag_uri`. -/
def SGTIN96.to_tag_uri (s : SGTIN96) : String :=
  "urn:epc:tag:sgtin-96:" ++ natRepr s.filter ++ "." ++
    zero_pad (natRepr s.company) (sgtin_company_digits s.partition) ++ "." ++
    natRepr s.indicator ++
    zero_pad (natRepr s.item) (sgtin_item_digits s.partition - 1) ++ "." ++
    natRepr s.serial

/-- `SGTIN96::to_gs1`: `(01) <indicator><company><item><checksum> (21) <serial>`
(`ApplicationIdentifier::GTIN = 1`, `SerialNumber = 21`, each rendered with
`{:0>2}`). -/
def SGTIN96.to_gs1 (s : SGTIN96) : String :=
  let element_string :=
    natRepr s.indicator ++
    zero_pad (natRepr s.company) (sgtin_company_digits s.partition) ++
    zero_pad (natRepr s.item) (sgtin_item_digits s.partition - 1)
  "(" ++ zero_pad (natRepr 1) 2 ++ ") " ++ element_string ++
    natRepr (gs1_checksum element_string) ++
    " (" ++ zero_pad (natRepr 21) 2 ++ ") " ++ natRepr s.serial

/-- `SGTIN198::to_uri` (the serial is percent-encoded). -/
def SGTIN198.to_uri (s : SGTIN198) : String :=
  "urn:epc:id:sgtin:" ++
    zero_pad (natRepr s.company) (sgtin_company_digits s.partition) ++ "." ++
    natRepr s.indicator ++
    zero_pad (natRepr s.item) (sgtin_item_digits s.partition - 1) ++ "." ++
    uri_encode s.serial

/-- `SGTIN198::to_tag_uri`. -/
def SGTIN198.to_tag_uri (s : SGTIN198) : String :=
  "urn:epc:tag:sgtin-198:" ++ natRepr s.filter ++ "." ++
    zero_pad (natRepr s.company) (sgtin_company_digits s.partition) ++ "." ++
    natRepr s.indicator ++
    zero_pad (natRepr s.item) (sgtin_item_digits s.partition - 1) ++ "." ++
    uri_encode s.serial

/-! ## `src/epc/sscc.rs` -/

/-- The SSCC-96 identifier structure. -/
structure SSCC96 where
  filter : Nat
  partition : Nat
  indicator : Nat
  company : Nat
  serial : Nat
deriving DecidableEq, Repr

/-- `company_digits` from `src/epc/sscc.rs` (GS1 EPC TDS Table 14-5). -/
def sscc_company_digits (partition : Nat) : Nat :=
  12 - partition

/-- `item_digits` from `src/epc/sscc.rs`: `17 - company_digits`. -/
def sscc_item_digits (partition : Nat) : Nat :=
  17 - sscc_company_digits partition

/-- `partition_bits` from `src/epc/sscc.rs` (GS1 EPC TDS Table 14-5); any
partition value outside `0..=6` hits `panic!`, modelled as `.abort`. -/
def sscc_partition_bits (partition : Nat) : DResult (Nat × Nat) :=
  match partition with
  | 0 => .ok (40, 18)
  | 1 => .ok (37, 21)
  | 2 => .ok (34, 24)
  | 3 => .ok (30, 28)
  | 4 => .ok (27, 31)
  | 5 => .ok (24, 34)
  | 6 => .ok (20, 48)
  | _ => .abort

/-- `SSCC96::to_uri`. -/
def SSCC96.to_uri (s : SSCC96) : String :=
  "urn:epc:id:sscc:" ++
    zero_pad (natRepr s.company) (sscc_company_digits s.partition) ++ "." ++
    natRepr s.indicator ++
    zero_pad (natRepr s.serial) (sscc_item_digits s.partition - 1)

/-- `SSCC96::to_tag_uri`. -/
def SSCC96.to_tag_uri (s : SSCC96) : String :=
  "urn:epc:tag:sscc-96:" ++ natRepr s.filter ++ "." ++
    zero_pad (natRepr s.company) (sscc_company_digits s.partition) ++ "." ++
    natRepr s.indicator ++
    zero_pad (natRepr s.serial) (sscc_item_digits s.partition - 1)

/-- `SSCC96::to_gs1`: `(00) <indicator><company><serial><checksum>`
(`ApplicationIdentifier::SSCC = 0`). -/
def SSCC96.to_gs1 (s : SSCC96) : String :=
  let element_string :=
    natRepr s.indicator ++
    zero_pad (natRepr s.company) (sscc_company_digits s.partition) ++
    zero_pad (natRepr s.serial) (sscc_item_digits s.partition - 1)
  "(" ++ zero_pad (natRepr 0) 2 ++ ") " ++ element_string ++
    natRepr (gs1_checksum element_string)

/-! ## `src/epc/gid.rs` -/

/-- The 96-bit General Identifier structure. -/
structure GID96 where
  manager : Nat
  class_ : Nat
  serial : Nat
deriving DecidableEq, Repr

/-- `decode_gid96` (GS1 EPC TDS Section 14.6.12): manager (28 bits), object
class (24 bits), serial (36 bits), read unconditionally — no partition
step. -/
def decode_gid96 (data : List Nat) : DResult GID96 :=
  let reader : BitReader := ⟨data, 0⟩
  (reader.read_u32 28).bind fun mr =>
    (mr.2.read_u32 24).bind fun cr =>
      (cr.2.read_u64 36).bind fun sr =>
        .ok ⟨mr.1, cr.1, sr.1⟩

/-! ## `src/epc/grai.rs` -/

/-- Bit width and digit count for one field of a GRAI partition row. -/
structure Partition where
  bits : Nat
  digits : Nat
deriving DecidableEq, Repr

/-- One row of the GRAI partition table. -/
structure GraiPartition where
  company_prefix : Partition
  asset_type : Partition
deriving DecidableEq, Repr

/-- `decode_partition_value` from `src/epc/grai.rs` (GS1 EPC TDS Table
14-14); any partition value outside `0..=6` yields
`Err("Invalid partition value".into())`. -/
def decode_partition_value (partition_value : Nat) : DResult GraiPartition :=
  match partition_value with
  | 0 => .ok ⟨⟨40, 12⟩, ⟨4, 0⟩⟩
  | 1 => .ok ⟨⟨37, 11⟩, ⟨7, 1⟩⟩
  | 2 => .ok ⟨⟨34, 10⟩, ⟨10, 2⟩⟩
  | 3 => .ok ⟨⟨30, 9⟩, ⟨14, 3⟩⟩
  | 4 => .ok ⟨⟨27, 8⟩, ⟨17, 4⟩⟩
  | 5 => .ok ⟨⟨24, 7⟩, ⟨20, 5⟩⟩
  | 6 => .ok ⟨⟨20, 6⟩, ⟨24, 6⟩⟩
  | _ => .err .invalidPartition

/-- The 96-bit Global Returnable Asset Identifier structure. -/
structure GRAI96 where
  filter : Nat
  partition : Nat
  company_prefix : Nat
  asset_type : Nat
  serial : Nat
deriving DecidableEq, Repr

/-- `decode_grai96` (GS1 EPC TDS Section 14.6.4): filter (3 bits),
partition (3 bits), partition-table lookup, company prefix, asset type,
serial (38 bits). -/
def decode_grai96 (data : List Nat) : DResult GRAI96 :=
  let reader : BitReader := ⟨data, 0⟩
  (reader.read_u8 3).bind fun fr =>
    (fr.2.read_u8 3).bind fun pr =>
      (decode_partition_value pr.1).bind fun gp =>
        (pr.2.read_u64 gp.company_prefix.bits).bind fun cr =>
          (cr.2.read_u32 gp.asset_type.bits).bind fun ar =>
            (ar.2.read_u64 38).bind fun sr =>
              .ok ⟨fr.1, pr.1, cr.1, ar.1, sr.1⟩

/-! ## `src/epc/mod.rs` -/

/-- `EPCBinaryHeader`: the 22 binary-layout codes of GS1 EPC TDS Table
14-1. -/
inductive EPCBinaryHeader where
  | Unprogrammed
  | GTDI96
  | GSRN96
  | GSRNP
  | USDoD96
  | SGITN96
  | SSCC96H
  | SGLN96
  | GRAI96H
  | GIAI96
  | GID96H
  | SGITN198
  | GRAI170
  | GIAI202
  | SGLN195
  | GTDI113
  | ADIVAR
  | CPI96
  | CPIVAR
  | GDTI174
  | SGCN96
  | ITIP110
  | ITIP212
deriving DecidableEq, Repr

/-- `EPCBinaryHeader::try_from` (derived `TryFromPrimitive`): the byte for
each of the 22 header codes; every other byte fails the conversion. -/
def headerFromByte (b : Nat) : Option EPCBinaryHeader :=
  match b with
  | 0x00 => some .Unprogrammed
  | 0x2C => some .GTDI96
  | 0x2D => some .GSRN96
  | 0x2E => some .GSRNP
  | 0x2F => some .USDoD96
  | 0x30 => some .SGITN96
  | 0x31 => some .SSCC96H
  | 0x32 => some .SGLN96
  | 0x33 => some .GRAI96H
  | 0x34 => some .GIAI96
  | 0x35 => some .GID96H
  | 0x36 => some .SGITN198
  | 0x37 => some .GRAI170
  | 0x38 => some .GIAI202
  | 0x39 => some .SGLN195
  | 0x3A => some .GTDI113
  | 0x3B => some .ADIVAR
  | 0x3C => some .CPI96
  | 0x3D => some .CPIVAR
  | 0x3E => some .GDTI174
  | 0x3F => some .SGCN96
  | 0x40 => some .ITIP110
  | 0x41 => some .ITIP212
  | _ => none

/-- The headers `decode_binary` routes to a decoder (the arms of its
`match`); every other recognized header falls into the
`_unimplemented` arm. -/
def implementedHeader : EPCBinaryHeader → Bool
  | .Unprogrammed => true
  | .SGITN96 => true
  | .SGITN198 => true
  | .SSCC96H => true
  | _ => false

/-- The tagged union `EPCValue` of `src/epc/mod.rs` (its variants are
exactly `Unprogrammed`, `SGTIN96`, `SGTIN198`, `SSCC96`). -/
inductive EPCVal where
  | unprogrammed (data : List Nat)
  | sgtin96 (v : SGTIN96)
  | sgtin198 (v : SGTIN198)
  | sscc96 (v : SSCC96)
deriving DecidableEq, Repr

/-- The `EPC` trait's `to_uri`, dispatched over the decoded value. -/
def EPCVal.to_uri : EPCVal → String
  | .unprogrammed _ => "urn:epc:id:unprogrammed"
  | .sgtin96 v => v.to_uri
  | .sgtin198 v => v.to_uri
  | .sscc96 v => v.to_uri

/-- The `EPC` trait's `to_tag_uri`, dispatched over the decoded value. -/
def EPCVal.to_tag_uri : EPCVal → String
  | .unprogrammed _ => "urn:epc:tag:unprogrammed"
  | .sgtin96 v => v.to_tag_uri
  | .sgtin198 v => v.to_tag_uri
  | .sscc96 v => v.to_tag_uri

/-- The `GS1` trait's `to_gs1`: implemented only by `SGTIN96` and
`SSCC96` in the source; `none` for the other variants. -/
def EPCVal.to_gs1 : EPCVal → Option String
  | .sgtin96 v => some v.to_gs1
  | .sscc96 v => some v.to_gs1
  | _ => none

/-- `decode_sgtin96` (GS1 EPC TDS Section 14.5.1): filter, partition,
partition-table widths, company, item, indicator extraction, 38-bit
serial. -/
def decode_sgtin96 (data : List Nat) : DResult EPCVal :=
  let reader : BitReader := ⟨data, 0⟩
  (reader.read_u8 3).bind fun fr =>
    (fr.2.read_u8 3).bind fun pr =>
      (sgtin_partition_bits pr.1).bind fun bits =>
        (pr.2.read_u64 bits.1).bind fun cr =>
          (cr.2.read_u64 bits.2).bind fun ir =>
            (sgtin_extract_indicator ir.1 pr.1).bind fun ii =>
              (ir.2.read_u64 38).bind fun sr =>
                .ok (.sgtin96 ⟨fr.1, pr.1, ii.2, cr.1, ii.1, sr.1⟩)

/-- `decode_sgtin198` (GS1 EPC TDS Section 14.5.1.2): as SGTIN-96, but the
serial is a 7-bit ASCII string with a 140-bit budget. -/
def decode_sgtin198 (data : List Nat) : DResult EPCVal :=
  let reader : BitReader := ⟨data, 0⟩
  (reader.read_u8 3).bind fun fr =>
    (fr.2.read_u8 3).bind fun pr =>
      (sgtin_partition_bits pr.1).bind fun bits =>
        (pr.2.read_u64 bits.1).bind fun cr =>
          (cr.2.read_u64 bits.2).bind fun ir =>
            (sgtin_extract_indicator ir.1 pr.1).bind fun ii =>
              (read_string ir.2 140).bind fun serial =>
                .ok (.sgtin198 ⟨fr.1, pr.1, ii.2, cr.1, ii.1, serial⟩)

/-- `decode_sscc96` (GS1 EPC TDS Section 14.5.2): filter, partition,
partition-table widths, company, serial, indicator extraction from the
serial field. -/
def decode_sscc96 (data : List Nat) : DResult EPCVal :=
  let reader : BitReader := ⟨data, 0⟩
  (reader.read_u8 3).bind fun fr =>
    (fr.2.read_u8 3).bind fun pr =>
      (sscc_partition_bits pr.1).bind fun bits =>
        (pr.2.read_u64 bits.1).bind fun cr =>
          (cr.2.read_u64 bits.2).bind fun sr =>
            (extract_indicator sr.1 (sscc_item_digits pr.1)).bind fun ii =>
              .ok (.sscc96 ⟨fr.1, pr.1, ii.2, cr.1, ii.1⟩)

/-- `take_header`: the source indexes `data[0]` unconditionally, so an
empty buffer aborts with an out-of-bounds panic; an unknown byte fails the
`TryFromPrimitive` conversion and is surfaced through `?`. -/
def take_header (data : List Nat) : DResult (List Nat × EPCBinaryHeader) :=
  match data with
  | [] => .abort
  | b :: rest =>
    match headerFromByte b with
    | none => .err .headerInvalid
    | some h => .ok (rest, h)

/-- `decode_binary` from `src/epc/mod.rs`: strip the header byte and route
to the matching decoder; `Unprogrammed` keeps the remaining bytes; every
other recognized header returns `UnimplementedError`. -/
def decode_binary (data : List Nat) : DResult EPCVal :=
  (take_header data).bind fun rh =>
    match rh.2 with
    | .SGITN96 => decode_sgtin96 rh.1
    | .SGITN198 => decode_sgtin198 rh.1
    | .SSCC96H => decode_sscc96 rh.1
    | .Unprogrammed => .ok (.unprogrammed rh.1)
    | _ => .err .unimplemented

/-- Modelled from the spec (§4.4): the raw values of the
`min(remaining_bits, bits) / 7` seven-bit characters in front of the
reader. -/
def sevenBitVals (r : BitReader) (bits : Nat) : List Nat :=
  (List.range (min r.remaining bits / 7)).map fun i =>
    readBitsAt r.data (r.pos + 7 * i) 7

/-- The SGTIN-96 test vector `3074257BF7194E4000001A85` (GS1 EPC TDS
appendix E.3, used by `tests/test_epc.rs`). -/
def c3_bytes : List Nat :=
  [0x30, 0x74, 0x25, 0x7B, 0xF7, 0x19, 0x4E, 0x40, 0x00, 0x00, 0x1A, 0x85]

/-- The SGTIN-198 test vector
`3674257BF6B7A659B2C2BF100000000000000000000000000000`. -/
def c6_bytes : List Nat :=
  [0x36, 0x74, 0x25, 0x7B, 0xF6, 0xB7, 0xA6, 0x59, 0xB2, 0xC2, 0xBF, 0x10,
   0, 0, 0, 0, 0, 0, 0, 0, 0, 0, 0, 0, 0, 0]

/-- A truncated SGTIN-198 payload: long enough for the filter, partition,
company and item fields (50 bits) but with almost no serial bits. -/
def truncated198 : List Nat :=
  [0x74, 0x25, 0x7B, 0xF6, 0xB7, 0xA6, 0x59]

/-! ## Helper lemmas -/

theorem DResult.bind_ok {α β : Type} (a : α) (f : α → DResult β) :
    DResult.bind (.ok a) f = f a := rfl

theorem DResult.bind_err {α β : Type} (e : GsError) (f : α → DResult β) :
    DResult.bind (.err e) f = .err e := rfl

theorem DResult.bind_abort {α β : Type} (f : α → DResult β) :
    DResult.bind .abort f = .abort := rfl

/-! ## Claims -/

/-- C1: for the three partitioned families, a partition selector of 7 is
claimed to yield a parse failure without aborting.  On the code as written
this holds only for GRAI: the SGTIN and SSCC `partition_bits` functions
`panic!` (modelled as `.abort`), so decoding an SGTIN-96 or SSCC-96 buffer
whose partition selector is 7 aborts instead of returning an error, while
`decode_grai96` returns `Err("Invalid partition value")`. -/
theorem partition_seven_outcome :
    decode_binary [0x30, 0x1C, 0, 0, 0, 0, 0, 0, 0, 0, 0, 0] = .abort ∧
    decode_binary [0x31, 0x1C, 0, 0, 0, 0, 0, 0, 0, 0, 0, 0] = .abort ∧
    decode_grai96 [0x1C, 0, 0, 0, 0, 0, 0, 0, 0, 0, 0] = .err .invalidPartition := by
  refine ⟨by decide, by decide, by decide⟩

/-- C2: the claim that `decode_binary` returns an explicit `Ok`/`Err`
result on every input fails on the empty buffer: `take_header` indexes
`data[0]` unconditionally, which is an out-of-bounds panic (modelled as
`.abort`). -/
theorem decode_binary_empty_abort :
    decode_binary ([] : List Nat) = .abort := rfl

/-- C3: decoding the 12-byte buffer `3074257BF7194E4000001A85` succeeds
with SGTIN-96 fields filter 3, partition 5, indicator 8, company 614141,
item 12345, serial 6789, whose identity URI, tag URI and GS1 element
string are exactly the three cited strings. -/
theorem sgtin96_example_decode :
    decode_binary c3_bytes = .ok (.sgtin96 ⟨3, 5, 8, 614141, 12345, 6789⟩) ∧
    EPCVal.to_uri (.sgtin96 ⟨3, 5, 8, 614141, 12345, 6789⟩) =
      "urn:epc:id:sgtin:0614141.812345.6789" ∧
    EPCVal.to_tag_uri (.sgtin96 ⟨3, 5, 8, 614141, 12345, 6789⟩) =
      "urn:epc:tag:sgtin-96:3.0614141.812345.6789" ∧
    EPCVal.to_gs1 (.sgtin96 ⟨3, 5, 8, 614141, 12345, 6789⟩) =
      some "(01) 80614141123458 (21) 6789" := by
  refine ⟨by decide, by decide, by decide, by decide⟩

/-- C5: for every partition value `p ≤ 6`, the SGTIN company and item
digit counts sum to 13, the SSCC company and serial digit counts sum to
17, and the GRAI partition row's company-prefix and asset-type digit
counts sum to 12. -/
theorem partition_digit_totals (p : Nat) (hp : p ≤ 6) :
    sgtin_company_digits p + sgtin_item_digits p = 13 ∧
    sscc_company_digits p + sscc_item_digits p = 17 ∧
    ∃ gp, decode_partition_value p = .ok gp ∧
      gp.company_prefix.digits + gp.asset_type.digits = 12 := by
  interval_cases p <;> exact ⟨by decide, by decide, _, rfl, by decide⟩

/-- Witness for C5 at the concrete partition value 3. -/
theorem partition_digit_totals_witness :
    sgtin_company_digits 3 + sgtin_item_digits 3 = 13 ∧
    sscc_company_digits 3 + sscc_item_digits 3 = 17 ∧
    ∃ gp, decode_partition_value 3 = .ok gp ∧
      gp.company_prefix.digits + gp.asset_type.digits = 12 :=
  partition_digit_totals 3 (by decide)

/-- C9: the claim that headers `0x35` (GID-96) and `0x33` (GRAI-96) are
routed to their decoders fails on the code: `decode_binary`'s match sends
both to the `_unimplemented` arm (the `gid`/`grai` modules are not wired
into `src/epc/mod.rs`), even though `decode_gid96` itself decodes the
repository's own GID-96 test vector to manager 123, class 456, serial 789
exactly as the claim describes. -/
theorem gid_grai_not_routed :
    decode_binary [0x35, 0x00, 0x00, 0x07, 0xB0, 0x00, 0x1C, 0x80, 0x00, 0x00, 0x03, 0x15] =
      .err .unimplemented ∧
    decode_binary [0x33, 0x76, 0x45, 0x1F, 0xD4, 0x0C, 0x0E, 0x40, 0x00, 0x00, 0x16, 0x2E] =
      .err .unimplemented ∧
    decode_gid96 [0x00, 0x00, 0x07, 0xB0, 0x00, 0x1C, 0x80, 0x00, 0x00, 0x03, 0x15] =
      .ok ⟨123, 456, 789⟩ := by
  refine ⟨by decide, by decide, by decide⟩

/-- C8: the three-way split of the header dispatcher.  A first byte that
is not one of the 22 codes of Table 14-1 (including the reserved
Tag-Identification sentinel `0xE2`) yields the header conversion failure;
a recognized code outside the implemented set yields the distinct
`UnimplementedError`; the two error values are never equal. -/
theorem header_dispatch_trichotomy :
    (∀ b rest, headerFromByte b = none →
       decode_binary (b :: rest) = .err .headerInvalid) ∧
    (∀ rest, decode_binary (0xE2 :: rest) = .err .headerInvalid) ∧
    (∀ b rest hdr, headerFromByte b = some hdr → implementedHeader hdr = false →
       decode_binary (b :: rest) = .err .unimplemented) ∧
    GsError.headerInvalid ≠ GsError.unimplemented := by
  refine ⟨?_, ?_, ?_, by decide⟩
  · intro b rest h
    simp [decode_binary, take_header, h, DResult.bind]
  · intro rest
    simp [decode_binary, take_header, headerFromByte, DResult.bind]
  · intro b rest hdr h hi
    simp only [decode_binary, take_header, h, DResult.bind]
    cases hdr <;> simp_all [implementedHeader]

/-- Witness for C8: the reserved byte `0xE2` is a parse failure and the
recognized-but-unimplemented code `0x2C` (GDTI-96) is an unimplemented
signal. -/
theorem header_dispatch_trichotomy_witness :
    decode_binary [0xE2] = .err .headerInvalid ∧
    decode_binary [0x2C] = .err .unimplemented :=
  ⟨header_dispatch_trichotomy.1 0xE2 [] rfl,
   header_dispatch_trichotomy.2.2.1 0x2C [] .GTDI96 rfl rfl⟩

/-- The checksum accumulation loop computes the positional sums of its
input as long as the `u16` accumulators never wrap. -/
theorem checksum_loop_eq (l : List Nat) : ∀ (b : Bool) (o e : Nat),
    o + (if b then (posSums l).1 else (posSums l).2) < 65536 →
    e + (if b then (posSums l).2 else (posSums l).1) < 65536 →
    checksum_loop l b o e =
      (o + (if b then (posSums l).1 else (posSums l).2),
       e + (if b then (posSums l).2 else (posSums l).1)) := by
  induction l with
  | nil => intro b o e _ _; cases b <;> simp [checksum_loop, posSums]
  | cons d ds ih =>
    intro b o e h1 h2
    cases b with
    | true =>
      simp only [posSums, if_true] at h1 h2 ⊢
      have hd : (o + d) % 65536 = o + d := Nat.mod_eq_of_lt (by omega)
      have hx := ih false (o + d) e (by simpa using by omega) (by simpa using by omega)
      simp only [if_neg (by simp : ¬(false = true))] at hx
      simp only [checksum_loop, if_true, hd, hx]
      simp only [Prod.mk.injEq]
      exact ⟨by omega, trivial⟩
    | false =>
      simp only [posSums, if_neg (by simp : ¬(false = true))] at h1 h2 ⊢
      have hd : (e + d) % 65536 = e + d := Nat.mod_eq_of_lt (by omega)
      have hx := ih true o (e + d) (by simpa using by omega) (by simpa using by omega)
      simp only [if_true] at hx
      simp only [checksum_loop, if_neg (by simp : ¬(false = true)), hd, hx]
      simp only [Prod.mk.injEq]
      exact ⟨trivial, by omega⟩

/-- C4 (amended): on an all-digit string whose weighted total
`3*oddSum + evenSum` stays below `2^16` — so that the `u16` accumulators
of the source never wrap — `gs1_checksum` returns exactly the GS1 mod-10
check digit of the spec's formula; in particular the two cited example
values hold. -/
theorem gs1_checksum_formula (s : String)
    (_hdig : ∀ c ∈ s.toList, isDigitChar c = true)
    (hbound : 3 * oddSum s + evenSum s < 65536) :
    gs1_checksum s = gs1_spec_digit s ∧
    gs1_checksum "0360843951968" = 0 ∧
    gs1_checksum "8061414112345" = 8 := by
  refine ⟨?_, by decide, by decide⟩
  have hov : oddSum s < 65536 := by omega
  have hev : evenSum s < 65536 := by omega
  have hloop := checksum_loop_eq (int_digits s).reverse true 0 0
    (by simpa [oddSum] using hov) (by simpa [evenSum] using hev)
  simp only [if_true, Nat.zero_add] at hloop
  simp only [gs1_checksum, gs1_spec_digit, hloop]
  have h3 : 3 * (posSums (int_digits s).reverse).1 % 65536 =
      3 * (posSums (int_digits s).reverse).1 := by
    apply Nat.mod_eq_of_lt
    have : (posSums (int_digits s).reverse).1 = oddSum s := rfl
    omega
  rw [h3]
  have h4 : (3 * (posSums (int_digits s).reverse).1 +
      (posSums (int_digits s).reverse).2) % 65536 =
      3 * (posSums (int_digits s).reverse).1 + (posSums (int_digits s).reverse).2 := by
    apply Nat.mod_eq_of_lt
    have e1 : (posSums (int_digits s).reverse).1 = oddSum s := rfl
    have e2 : (posSums (int_digits s).reverse).2 = evenSum s := rfl
    omega
  rw [h4]
  have e1 : (posSums (int_digits s).reverse).1 = oddSum s := rfl
  have e2 : (posSums (int_digits s).reverse).2 = evenSum s := rfl
  rw [e1, e2]
  by_cases hch : 0 < (3 * oddSum s + evenSum s) % 10
  · simp [hch]
  · simp [hch]
    omega

/-- Witness for C4's amended theorem at the cited string
`"8061414112345"`. -/
theorem gs1_checksum_formula_witness :
    (∀ c ∈ ("8061414112345" : String).toList, isDigitChar c = true) ∧
    3 * oddSum "8061414112345" + evenSum "8061414112345" < 65536 ∧
    (gs1_checksum "8061414112345" = gs1_spec_digit "8061414112345" ∧
     gs1_checksum "0360843951968" = 0 ∧
     gs1_checksum "8061414112345" = 8) :=
  ⟨by decide, by decide, gs1_checksum_formula "8061414112345" (by decide) (by decide)⟩

/-- A string of 4855 nines: long enough that `3 * odd` overflows the
`u16` accumulator of `gs1_checksum`. -/
def bigNines : String := String.mk (List.replicate 4855 '9')

/-- Over an even-length run of nines the checksum loop adds nine per
element to each accumulator, independent of the starting parity, as long
as neither accumulator wraps. -/
theorem checksum_loop_replicate_nine : ∀ (k : Nat) (b : Bool) (o e : Nat),
    o + 9 * k < 65536 → e + 9 * k < 65536 →
    checksum_loop (List.replicate (2 * k) 9) b o e = (o + 9 * k, e + 9 * k) := by
  intro k
  induction k with
  | zero => intro b o e _ _; simp [checksum_loop]
  | succ k ih =>
    intro b o e h1 h2
    have hrep : List.replicate (2 * (k + 1)) 9 = 9 :: 9 :: List.replicate (2 * k) (9 : Nat) := by
      have : 2 * (k + 1) = (2 * k) + 1 + 1 := by ring
      rw [this, List.replicate_succ, List.replicate_succ]
    rw [hrep]
    cases b with
    | true =>
      simp only [checksum_loop, if_true, if_neg (by simp : ¬(false = true))]
      rw [Nat.mod_eq_of_lt (by omega), Nat.mod_eq_of_lt (by omega)]
      rw [ih true (o + 9) (e + 9) (by omega) (by omega)]
      simp only [Prod.mk.injEq]
      exact ⟨by omega, by omega⟩
    | false =>
      simp only [checksum_loop, if_true, if_neg (by simp : ¬(false = true))]
      rw [Nat.mod_eq_of_lt (by omega), Nat.mod_eq_of_lt (by omega)]
      rw [ih false (o + 9) (e + 9) (by omega) (by omega)]
      simp only [Prod.mk.injEq]
      exact ⟨by omega, by omega⟩

/-- Positional sums of an even-length run of nines. -/
theorem posSums_replicate_nine : ∀ k : Nat,
    posSums (List.replicate (2 * k) 9) = (9 * k, 9 * k) := by
  intro k
  induction k with
  | zero => simp [posSums]
  | succ k ih =>
    have hrep : List.replicate (2 * (k + 1)) 9 = 9 :: 9 :: List.replicate (2 * k) (9 : Nat) := by
      have : 2 * (k + 1) = (2 * k) + 1 + 1 := by ring
      rw [this, List.replicate_succ, List.replicate_succ]
    rw [hrep]
    simp only [posSums, ih]
    simp only [Prod.mk.injEq]
    exact ⟨by omega, by omega⟩

/-- The digit values of `bigNines` form a run of nines. -/
theorem int_digits_bigNines :
    int_digits bigNines = 9 :: List.replicate (2 * 2427) 9 := by
  have h1 : int_digits bigNines
      = List.map (fun c => c.toNat - 48) (List.replicate 4855 '9') := rfl
  rw [h1, List.map_replicate]
  have h2 : '9'.toNat - 48 = 9 := rfl
  rw [h2]
  have h3 : (4855 : Nat) = 2 * 2427 + 1 := by norm_num
  rw [h3, List.replicate_succ]

/-- Every character of `bigNines` is a digit. -/
theorem bigNines_digits : ∀ c ∈ bigNines.toList, isDigitChar c = true := by
  intro c hc
  have h1 : bigNines.toList = List.replicate 4855 '9' := rfl
  rw [h1] at hc
  rw [List.eq_of_mem_replicate hc]
  rfl

/-- The reversed digit values of `bigNines`: an odd run of nines. -/
theorem int_digits_bigNines_rev :
    (int_digits bigNines).reverse = 9 :: List.replicate (2 * 2427) 9 := by
  have h0 : int_digits bigNines = List.replicate 4855 9 := by
    have h1 : int_digits bigNines
        = List.map (fun c => c.toNat - 48) (List.replicate 4855 '9') := rfl
    rw [h1, List.map_replicate]
    rfl
  rw [h0, List.reverse_replicate]
  have h3 : (4855 : Nat) = 2 * 2427 + 1 := by norm_num
  rw [h3, List.replicate_succ]

/-- The checksum loop over an odd run of nines, with the length kept
symbolic so that nothing is ever reduced on a long literal list. -/
theorem checksum_loop_odd_nines (k : Nat) (h1 : 9 + 9 * k < 65536) :
    checksum_loop (9 :: List.replicate (2 * k) 9) true 0 0 = (9 + 9 * k, 9 * k) := by
  simp only [checksum_loop, if_true]
  have h9 : (0 + 9) % 65536 = 9 := by norm_num
  rw [h9, checksum_loop_replicate_nine k false 9 0 (by omega) (by omega)]
  simp

/-- The positional sums over an odd run of nines, length symbolic. -/
theorem posSums_odd_nines (k : Nat) :
    posSums (9 :: List.replicate (2 * k) 9) = (9 * k + 9, 9 * k) := by
  simp only [posSums, posSums_replicate_nine k]

/-- `gs1_checksum` expressed through the value of its accumulation loop. -/
theorem gs1_checksum_eval (s : String) (o e : Nat)
    (h : checksum_loop (int_digits s).reverse true 0 0 = (o, e)) :
    gs1_checksum s =
      if 0 < (3 * o % 65536 + e) % 65536 % 10
      then 10 - (3 * o % 65536 + e) % 65536 % 10
      else (3 * o % 65536 + e) % 65536 % 10 := by
  simp [gs1_checksum, h]

/-- `gs1_spec_digit` expressed through its positional sums. -/
theorem gs1_spec_eval (s : String) (o e : Nat)
    (ho : oddSum s = o) (he : evenSum s = e) :
    gs1_spec_digit s =
      if 0 < (3 * o + e) % 10 then 10 - (3 * o + e) % 10 else 0 := by
  simp [gs1_spec_digit, ho, he]

/-- C4 counterexample: on the all-digit string of 4855 nines the claimed
formula fails on the code — the `u16` expression `3 * odd` wraps modulo
`2^16`, so `gs1_checksum` returns 7 while the spec's formula gives 1. -/
theorem gs1_checksum_u16_wrap_cex :
    (∀ c ∈ bigNines.toList, isDigitChar c = true) ∧
    gs1_checksum bigNines = 7 ∧ gs1_spec_digit bigNines = 1 := by
  refine ⟨bigNines_digits, ?_, ?_⟩
  · have hl : checksum_loop (int_digits bigNines).reverse true 0 0 = (21852, 21843) := by
      rw [int_digits_bigNines_rev, checksum_loop_odd_nines 2427 (by norm_num)]
    rw [gs1_checksum_eval bigNines 21852 21843 hl]
    decide
  · have ho : oddSum bigNines = 21852 := by
      show (posSums (int_digits bigNines).reverse).1 = 21852
      rw [int_digits_bigNines_rev, posSums_odd_nines 2427]
    have he : evenSum bigNines = 21843 := by
      show (posSums (int_digits bigNines).reverse).2 = 21843
      rw [int_digits_bigNines_rev, posSums_odd_nines 2427]
    rw [gs1_spec_eval bigNines 21852 21843 ho he]
    decide

/-- The character-reading loop never fails when asked for at most
`remaining / 7` characters, and returns exactly the non-zero seven-bit
values, in order, as characters. -/
theorem readStringChars_ok : ∀ (k : Nat) (r : BitReader), 7 * k ≤ r.remaining →
    readStringChars k r =
      .ok ((((List.range k).map fun i => readBitsAt r.data (r.pos + 7 * i) 7).filter
        (· ≠ 0)).map Char.ofNat) := by
  intro k
  induction k with
  | zero => intro r _; rfl
  | succ k ih =>
    intro r h
    have h7 : 7 ≤ r.remaining := by omega
    have hread : r.read_u8 7 =
        .ok (readBitsAt r.data r.pos 7, ⟨r.data, r.pos + 7⟩) := by
      simp [BitReader.read_u8, BitReader.read_uint, h7]
    have hrem : (⟨r.data, r.pos + 7⟩ : BitReader).remaining = r.remaining - 7 := by
      simp [BitReader.remaining]
      omega
    have hih := ih ⟨r.data, r.pos + 7⟩ (by rw [hrem]; omega)
    simp only [readStringChars, hread, DResult.bind_ok, hih]
    have hrange : List.range (k + 1) = 0 :: (List.range k).map Nat.succ :=
      List.range_succ_eq_map k
    rw [hrange]
    simp only [List.map_cons, List.map_map, DResult.bind_ok, DResult.ok.injEq]
    have hshift : ((List.range k).map fun i =>
          readBitsAt r.data ((⟨r.data, r.pos + 7⟩ : BitReader).pos + 7 * i) 7)
        = (List.range k).map ((fun i => readBitsAt r.data (r.pos + 7 * i) 7) ∘ Nat.succ) := by
      apply List.map_congr_left
      intro i _
      simp only [Function.comp]
      have : r.pos + 7 + 7 * i = r.pos + 7 * (i + 1) := by ring
      simp [this]
    rw [← hshift]
    have hzero : r.pos + 7 * 0 = r.pos + 0 := by ring
    by_cases hv : readBitsAt r.data r.pos 7 ≠ 0
    · simp only [hv, if_true, List.filter_cons]
      simp [hv, hzero]
    · simp only [List.filter_cons]
      simp at hv
      simp [hv, hzero]

/-- `read_string` always succeeds and returns exactly the non-zero
seven-bit values as characters: the character count is clamped to the
bits actually remaining. -/
theorem read_string_eq (r : BitReader) (bits : Nat) :
    read_string r bits =
      .ok (String.mk (((sevenBitVals r bits).filter (· ≠ 0)).map Char.ofNat)) := by
  have hk : 7 * (min r.remaining bits / 7) ≤ r.remaining := by
    have h1 : min r.remaining bits / 7 * 7 ≤ min r.remaining bits :=
      Nat.div_mul_le_self _ 7
    have h2 : min r.remaining bits ≤ r.remaining := Nat.min_le_left _ _
    omega
  simp only [read_string, readStringChars_ok (min r.remaining bits / 7) r hk,
    DResult.bind_ok, sevenBitVals]

/-! ## Decimal-rendering lemmas -/

/-- The accumulator of `natDigsAux` is a plain suffix. -/
theorem natDigsAux_append : ∀ (f n : Nat) (acc : List Char),
    natDigsAux f n acc = natDigsAux f n [] ++ acc := by
  intro f
  induction f with
  | zero => intro n acc; rfl
  | succ f ih =>
    intro n acc
    by_cases h : n < 10
    · simp [natDigsAux, h]
    · simp only [natDigsAux, h, if_false]
      rw [ih (n / 10) [digitChar (n % 10)], ih (n / 10) (digitChar (n % 10) :: acc)]
      simp

/-- With enough fuel, `natDigsAux` produces the base-10 digits of `n` in
most-significant-first order. -/
theorem natDigsAux_eq_digits : ∀ (f n : Nat) (acc : List Char), n < 10 ^ f →
    natDigsAux (f + 1) n acc =
      (if n = 0 then [digitChar 0] else ((Nat.digits 10 n).map digitChar).reverse) ++ acc := by
  intro f
  induction f with
  | zero =>
    intro n acc h
    have hn : n = 0 := by omega
    subst hn
    rfl
  | succ f ih =>
    intro n acc h
    by_cases hn10 : n < 10
    · by_cases hn0 : n = 0
      · subst hn0; rfl
      · have hstep : natDigsAux (f + 1 + 1) n acc = digitChar (n % 10) :: acc := by
          rw [natDigsAux]
          simp [hn10]
        rw [hstep]
        simp only [hn0, if_false]
        rw [Nat.digits_def' (by norm_num : (1:Nat) < 10) (Nat.pos_of_ne_zero hn0)]
        have hd0 : n / 10 = 0 := Nat.div_eq_of_lt hn10
        rw [hd0]
        simp
    · have hn0 : ¬ n = 0 := by omega
      have hstep : natDigsAux (f + 1 + 1) n acc
          = natDigsAux (f + 1) (n / 10) (digitChar (n % 10) :: acc) := by
        rw [natDigsAux]
        simp [hn10]
      rw [hstep]
      have hdiv : n / 10 < 10 ^ f := by
        apply Nat.div_lt_of_lt_mul
        rw [Nat.mul_comm]
        rw [pow_succ] at h
        exact h
      rw [ih (n / 10) (digitChar (n % 10) :: acc) hdiv]
      have hd0 : ¬ n / 10 = 0 := by
        have : 10 ≤ n := by omega
        have := Nat.one_le_div_iff (by norm_num : 0 < 10) |>.mpr this
        omega
      simp only [hd0, if_false]
      rw [Nat.digits_def' (by norm_num : (1:Nat) < 10) (Nat.pos_of_ne_zero hn0)]
      simp [hn0]

/-- The character list of the decimal rendering. -/
theorem natRepr_toList (n : Nat) :
    (natRepr n).toList =
      if n = 0 then [digitChar 0] else ((Nat.digits 10 n).map digitChar).reverse := by
  have h1 : (natRepr n).toList = natDigsAux (n + 1) n [] := rfl
  rw [h1, natDigsAux_eq_digits n n [] (Nat.lt_pow_self (by norm_num) n)]
  simp

/-- The decimal rendering is never empty. -/
theorem natRepr_ne_nil (n : Nat) : (natRepr n).toList ≠ [] := by
  rw [natRepr_toList]
  by_cases h : n = 0
  · simp [h]
  · simp only [h, if_false]
    simp [Nat.digits_ne_nil_iff_ne_zero.mpr h]

/-- The value of a digit character built from a digit. -/
theorem digitChar_toNat (d : Nat) (h : d < 10) : (digitChar d).toNat = 48 + d := by
  interval_cases d <;> rfl

/-- Digit characters are digits. -/
theorem isDigitChar_digitChar (d : Nat) (h : d < 10) : isDigitChar (digitChar d) = true := by
  interval_cases d <;> rfl

/-- Every character of the decimal rendering is a digit. -/
theorem natRepr_all_digits (n : Nat) : ∀ c ∈ (natRepr n).toList, isDigitChar c = true := by
  intro c hc
  rw [natRepr_toList] at hc
  by_cases h : n = 0
  · simp [h] at hc
    rw [hc]
    rfl
  · simp only [h, if_false, List.mem_reverse, List.mem_map] at hc
    obtain ⟨d, hd, rfl⟩ := hc
    exact isDigitChar_digitChar d (Nat.digits_lt_base (by norm_num) hd)

/-- Folding the digit-accumulation step from an arbitrary seed. -/
theorem digitsVal_foldl : ∀ (l : List Char) (a : Nat),
    l.foldl (fun a c => a * 10 + (c.toNat - 48)) a = a * 10 ^ l.length + digitsVal l := by
  intro l
  induction l with
  | nil => intro a; simp [digitsVal]
  | cons c cs ih =>
    intro a
    have h1 : digitsVal (c :: cs) = (c.toNat - 48) * 10 ^ cs.length + digitsVal cs := by
      show List.foldl _ (0 * 10 + (c.toNat - 48)) cs = _
      rw [ih]
      ring_nf
    simp only [List.foldl_cons, List.length_cons, h1, ih (a * 10 + (c.toNat - 48))]
    ring

/-- The value of a digit-character list is bounded by `10 ^ length`. -/
theorem digitsVal_lt : ∀ (l : List Char), (∀ c ∈ l, isDigitChar c = true) →
    digitsVal l < 10 ^ l.length := by
  intro l
  induction l with
  | nil => intro _; simp [digitsVal]
  | cons c cs ih =>
    intro h
    have hc : c.toNat - 48 ≤ 9 := by
      have := h c (by simp)
      simp [isDigitChar] at this
      omega
    have h1 : digitsVal (c :: cs) = (c.toNat - 48) * 10 ^ cs.length + digitsVal cs := by
      show List.foldl _ (0 * 10 + (c.toNat - 48)) cs = _
      rw [digitsVal_foldl]
      ring_nf
    have h2 := ih (fun d hd => h d (by simp [hd]))
    rw [h1]
    have h3 : (10:Nat) ^ (c :: cs).length = 10 * 10 ^ cs.length := by
      simp [pow_succ]
      ring
    rw [h3]
    nlinarith

/-- Concatenation law for digit values. -/
theorem digitsVal_append (l1 l2 : List Char) :
    digitsVal (l1 ++ l2) = digitsVal l1 * 10 ^ l2.length + digitsVal l2 := by
  show List.foldl _ 0 (l1 ++ l2) = _
  rw [List.foldl_append]
  exact digitsVal_foldl l2 (digitsVal l1)

/-- Leading zero characters do not change the value. -/
theorem digitsVal_replicate_zero (k : Nat) (l : List Char) :
    digitsVal (List.replicate k '0' ++ l) = digitsVal l := by
  rw [digitsVal_append]
  have h0 : digitsVal (List.replicate k '0') = 0 := by
    induction k with
    | zero => rfl
    | succ k ih =>
      rw [List.replicate_succ]
      show List.foldl _ (0 * 10 + ('0'.toNat - 48)) _ = 0
      have : (0 : Nat) * 10 + ('0'.toNat - 48) = 0 := rfl
      rw [this]
      exact ih
  rw [h0]
  simp

/-- The reversed digit characters of a digit list evaluate to its
little-endian polynomial value. -/
theorem digitsVal_reverse_map : ∀ (ds : List Nat), (∀ d ∈ ds, d < 10) →
    digitsVal ((ds.map digitChar).reverse) = Nat.ofDigits 10 ds := by
  intro ds
  induction ds with
  | nil => intro _; rfl
  | cons d ds ih =>
    intro h
    simp only [List.map_cons, List.reverse_cons]
    rw [digitsVal_append]
    have h1 : digitsVal [digitChar d] = d := by
      show 0 * 10 + ((digitChar d).toNat - 48) = d
      rw [digitChar_toNat d (h d (by simp))]
      omega
    rw [h1, ih (fun x hx => h x (by simp [hx])), Nat.ofDigits_cons]
    simp
    ring

/-- The decimal rendering evaluates back to the number itself. -/
theorem digitsVal_natRepr (n : Nat) : digitsVal (natRepr n).toList = n := by
  rw [natRepr_toList]
  by_cases h : n = 0
  · simp [h]
    rfl
  · simp only [h, if_false]
    rw [digitsVal_reverse_map _ (fun d hd => Nat.digits_lt_base (by norm_num) hd)]
    exact Nat.ofDigits_digits 10 n

/-- The number is below `10 ^ (length of its rendering)`. -/
theorem natRepr_lt_pow (n : Nat) : n < 10 ^ (natRepr n).toList.length := by
  have h1 := digitsVal_lt (natRepr n).toList (natRepr_all_digits n)
  rw [digitsVal_natRepr] at h1
  exact h1

/-- Character list of a zero-padded string. -/
theorem zero_pad_toList (s : String) (d : Nat) :
    (zero_pad s d).toList = List.replicate (d - s.length) '0' ++ s.toList := by
  by_cases h : d ≤ s.length
  · have h0 : d - s.length = 0 := Nat.sub_eq_zero_of_le h
    simp [zero_pad, h, h0]
  · simp only [zero_pad, h, if_false]
    rfl

/-- A string's `length` is the length of its character list. -/
theorem string_length_toList (s : String) : s.length = s.toList.length := rfl

/-- Length of a zero-padded string. -/
theorem zero_pad_length (s : String) (d : Nat) :
    (zero_pad s d).toList.length = max d s.toList.length := by
  rw [zero_pad_toList, List.length_append, List.length_replicate]
  have h : s.length = s.toList.length := rfl
  rw [h]
  omega

/-- The value of a zero-padded rendering is the rendered number. -/
theorem digitsVal_zero_pad_natRepr (v d : Nat) :
    digitsVal (zero_pad (natRepr v) d).toList = v := by
  rw [zero_pad_toList, digitsVal_replicate_zero, digitsVal_natRepr]

/-- Every character of a zero-padded rendering is a digit. -/
theorem zero_pad_natRepr_digits (v d : Nat) :
    ∀ c ∈ (zero_pad (natRepr v) d).toList, isDigitChar c = true := by
  intro c hc
  rw [zero_pad_toList] at hc
  rcases List.mem_append.mp hc with h | h
  · rw [List.eq_of_mem_replicate h]
    rfl
  · exact natRepr_all_digits v c h

/-- `parseU64` on a non-empty all-digit character list returns its value
when it fits in 64 bits. -/
theorem parseU64_digits (cs : List Char) (hne : cs ≠ [])
    (hdig : ∀ c ∈ cs, isDigitChar c = true) (hlt : digitsVal cs < 2 ^ 64) :
    parseU64 (String.mk cs) = some (digitsVal cs) := by
  have htl : (String.mk cs).toList = cs := rfl
  cases cs with
  | nil => exact absurd rfl hne
  | cons c rest =>
    have hc : isDigitChar c = true := hdig c (by simp)
    have hcp : ¬ (c = '+') := by
      intro hcp
      rw [hcp] at hc
      simp [isDigitChar] at hc
    simp only [parseU64, htl, List.head?_cons, Option.some.injEq, hcp, if_false]
    rw [if_neg (by simp : ¬ (c :: rest = []))]
    rw [if_pos (List.all_eq_true.mpr (fun x hx => hdig x hx))]
    rw [if_pos hlt]

/-- `parseU64` fails on the empty string. -/
theorem parseU64_empty : parseU64 (String.mk []) = none := rfl

/-- Head/tail decomposition of a digit-character value. -/
theorem digitsVal_cons (c : Char) (rest : List Char) :
    digitsVal (c :: rest) = (c.toNat - 48) * 10 ^ rest.length + digitsVal rest := by
  show List.foldl _ (0 * 10 + (c.toNat - 48)) rest = _
  rw [digitsVal_foldl]
  ring_nf

/-- Numbers below ten render as a single character. -/
theorem natRepr_length_lt_ten (v : Nat) (h : v < 10) : (natRepr v).toList.length = 1 := by
  rw [natRepr_toList]
  by_cases h0 : v = 0
  · simp [h0]
  · simp [h0, Nat.digits_of_lt 10 v h0 h]

/-- The rendering of any number is non-trivial. -/
theorem natRepr_length_pos (v : Nat) : 1 ≤ (natRepr v).toList.length := by
  have h := natRepr_ne_nil v
  cases hc : (natRepr v).toList with
  | nil => exact absurd hc h
  | cons c cs => simp

/-- `extract_indicator` succeeds whenever the padded rendering has at
least two characters, splitting off the leading digit. -/
theorem extract_indicator_ok (v d : Nat) (hv : v < 2 ^ 64)
    (hL : 2 ≤ max d (natRepr v).toList.length) :
    extract_indicator v d =
      .ok (v % 10 ^ (max d (natRepr v).toList.length - 1),
           v / 10 ^ (max d (natRepr v).toList.length - 1)) ∧
    v / 10 ^ (max d (natRepr v).toList.length - 1) < 10 := by
  set L := max d (natRepr v).toList.length with hLdef
  have hlen : (zero_pad (natRepr v) d).toList.length = L := zero_pad_length _ _
  have hdig := zero_pad_natRepr_digits v d
  have hval : digitsVal (zero_pad (natRepr v) d).toList = v := digitsVal_zero_pad_natRepr v d
  cases hcs : (zero_pad (natRepr v) d).toList with
  | nil =>
    rw [hcs] at hlen
    simp only [List.length_nil] at hlen
    omega
  | cons c rest =>
    rw [hcs] at hlen hdig hval
    have hcd : isDigitChar c = true := hdig c (by simp)
    have hrestlen : rest.length = L - 1 := by
      simp only [List.length_cons] at hlen
      omega
    have hrestdig : ∀ x ∈ rest, isDigitChar x = true := fun x hx => hdig x (by simp [hx])
    have hrestlt : digitsVal rest < 10 ^ (L - 1) := by
      have := digitsVal_lt rest hrestdig
      rwa [hrestlen] at this
    have hsplit : 10 ^ (L - 1) * (c.toNat - 48) + digitsVal rest = v := by
      calc 10 ^ (L - 1) * (c.toNat - 48) + digitsVal rest
          = (c.toNat - 48) * 10 ^ rest.length + digitsVal rest := by rw [hrestlen]; ring
        _ = digitsVal (c :: rest) := (digitsVal_cons c rest).symm
        _ = v := hval
    have hBpos : 0 < 10 ^ (L - 1) := Nat.pos_pow_of_pos _ (by norm_num)
    have hdivq : v / 10 ^ (L - 1) = c.toNat - 48 := by
      conv_lhs => rw [← hsplit]
      rw [Nat.mul_add_div hBpos, Nat.div_eq_of_lt hrestlt]
      omega
    have hmodr : v % 10 ^ (L - 1) = digitsVal rest := by
      conv_lhs => rw [← hsplit]
      rw [Nat.mul_add_mod, Nat.mod_eq_of_lt hrestlt]
    have hrest_ne : rest ≠ [] := by
      intro h
      rw [h] at hrestlen
      simp at hrestlen
      omega
    have hparse : parseU64 (String.mk rest) = some (digitsVal rest) := by
      apply parseU64_digits rest hrest_ne hrestdig
      have h1 : digitsVal rest ≤ v := by
        rw [← hmodr]
        exact Nat.mod_le v _
      omega
    have hctd : char_to_digit c = some (c.toNat - 48) := by
      rw [char_to_digit, if_pos]
      simp [isDigitChar] at hcd
      omega
    constructor
    · simp only [extract_indicator, hcs, hctd, hparse]
      rw [hdivq, hmodr]
    · rw [hdivq]
      simp [isDigitChar] at hcd
      omega

/-- `extract_indicator` hits the integer-parse failure exactly in the
single-character case. -/
theorem extract_indicator_degenerate (v d : Nat)
    (hL : max d (natRepr v).toList.length = 1) :
    extract_indicator v d = .err .intParse := by
  have hlen : (zero_pad (natRepr v) d).toList.length = max d (natRepr v).toList.length :=
    zero_pad_length _ _
  have hdig := zero_pad_natRepr_digits v d
  cases hcs : (zero_pad (natRepr v) d).toList with
  | nil =>
    rw [hcs, hL] at hlen
    simp at hlen
  | cons c rest =>
    rw [hcs] at hlen hdig
    have hcd : isDigitChar c = true := hdig c (by simp)
    have hrest : rest = [] := by
      rw [hL] at hlen
      simp only [List.length_cons] at hlen
      have : rest.length = 0 := by omega
      exact List.length_eq_zero.mp this
    subst hrest
    have hctd : char_to_digit c = some (c.toNat - 48) := by
      rw [char_to_digit, if_pos]
      simp [isDigitChar] at hcd
      omega
    simp only [extract_indicator, hcs, hctd, parseU64_empty]

/-- C7: for a raw item-field value `v` (a `u64`) and a family-derived
digit count `d ≥ 1`, `extract_indicator` zero-pads the decimal rendering
of `v` to `d` characters (total width `max d (natRepr v).length`), fails
with the integer-parse error exactly in the degenerate case `d = 1` with
`v < 10` (where the remaining string is empty), and otherwise returns the
item value `v mod 10^(width-1)` together with the leading indicator digit
`v / 10^(width-1)`, which is always in `0..9`. -/
theorem extract_indicator_characterisation (v d : Nat) (hv : v < 2 ^ 64) (hd : 1 ≤ d) :
    (extract_indicator v d = .err .intParse ↔ (d = 1 ∧ v < 10)) ∧
    (¬ (d = 1 ∧ v < 10) →
      extract_indicator v d =
        .ok (v % 10 ^ (max d (natRepr v).toList.length - 1),
             v / 10 ^ (max d (natRepr v).toList.length - 1)) ∧
      v / 10 ^ (max d (natRepr v).toList.length - 1) < 10) := by
  have hlp := natRepr_length_pos v
  have hiff : max d (natRepr v).toList.length = 1 ↔ (d = 1 ∧ v < 10) := by
    constructor
    · intro h
      have hd1 : d = 1 := by omega
      have hl1 : (natRepr v).toList.length = 1 := by omega
      have hv10 := natRepr_lt_pow v
      rw [hl1] at hv10
      exact ⟨hd1, by simpa using hv10⟩
    · rintro ⟨hd1, hv10⟩
      have hl1 := natRepr_length_lt_ten v hv10
      omega
  constructor
  · constructor
    · intro herr
      by_contra hcond
      have hge : 2 ≤ max d (natRepr v).toList.length := by
        have h1 : 1 ≤ max d (natRepr v).toList.length := by omega
        rcases Nat.lt_or_ge (max d (natRepr v).toList.length) 2 with h | h
        · exact absurd (hiff.mp (by omega)) hcond
        · exact h
      have hok := (extract_indicator_ok v d hv hge).1
      rw [hok] at herr
      exact absurd herr (by simp)
    · intro hcond
      exact extract_indicator_degenerate v d (hiff.mpr hcond)
  · intro hcond
    have hge : 2 ≤ max d (natRepr v).toList.length := by
      rcases Nat.lt_or_ge (max d (natRepr v).toList.length) 2 with h | h
      · exact absurd (hiff.mp (by omega)) hcond
      · exact h
    exact extract_indicator_ok v d hv hge

/-- Witness for C7 at `v = 812345`, `d = 6` (the SGTIN-96 test vector's
item field), where extraction succeeds with indicator 8 and item 12345. -/
theorem extract_indicator_characterisation_witness :
    (812345 : Nat) < 2 ^ 64 ∧ (1 : Nat) ≤ 6 ∧
    ((extract_indicator 812345 6 = .err .intParse ↔ (6 = 1 ∧ 812345 < 10)) ∧
     (¬ ((6 : Nat) = 1 ∧ (812345 : Nat) < 10) →
       extract_indicator 812345 6 =
         .ok (812345 % 10 ^ (max 6 (natRepr 812345).toList.length - 1),
              812345 / 10 ^ (max 6 (natRepr 812345).toList.length - 1)) ∧
       812345 / 10 ^ (max 6 (natRepr 812345).toList.length - 1) < 10)) :=
  ⟨by norm_num, by norm_num,
   extract_indicator_characterisation 812345 6 (by norm_num) (by norm_num)⟩

/-- C6: for every reader state and bit budget, the 7-bit string reader
reads `min(remaining, budget) / 7` characters and keeps, in order, exactly
the characters with a non-zero raw value — zeros are dropped wherever they
occur; consequently the SGTIN-198 test vector decodes with serial
`"32a/b"` (interior and trailing nulls removed) and its identity URI
percent-encodes it as `32a%2Fb`. -/
theorem read_string_drops_nulls :
    (∀ (r : BitReader) (bits : Nat),
       read_string r bits =
         .ok (String.mk (((sevenBitVals r bits).filter (· ≠ 0)).map Char.ofNat))) ∧
    decode_binary c6_bytes = .ok (.sgtin198 ⟨3, 5, 7, 614141, 12345, "32a/b"⟩) ∧
    EPCVal.to_uri (.sgtin198 ⟨3, 5, 7, 614141, 12345, "32a/b"⟩) =
      "urn:epc:id:sgtin:0614141.712345.32a%2Fb" :=
  ⟨read_string_eq, by decide, by decide⟩

/-- C10: the 7-bit string reader can never fail — its character count is
clamped to the remaining bits — and therefore an SGTIN-198 decode that has
successfully read the filter, partition, company and item fields always
returns `Ok`, regardless of how short the buffer is. -/
theorem read_string_total_sgtin198 :
    (∀ (r : BitReader) (bits : Nat), ∃ s, read_string r bits = .ok s) ∧
    (∀ (data : List Nat) (f : Nat) (r1 : BitReader) (p : Nat) (r2 : BitReader)
       (cb ib c : Nat) (r3 : BitReader) (it : Nat) (r4 : BitReader) (it2 ind : Nat),
       BitReader.read_u8 ⟨data, 0⟩ 3 = .ok (f, r1) →
       BitReader.read_u8 r1 3 = .ok (p, r2) →
       sgtin_partition_bits p = .ok (cb, ib) →
       BitReader.read_u64 r2 cb = .ok (c, r3) →
       BitReader.read_u64 r3 ib = .ok (it, r4) →
       sgtin_extract_indicator it p = .ok (it2, ind) →
       ∃ out, decode_sgtin198 data = .ok out) := by
  constructor
  · intro r bits
    exact ⟨_, read_string_eq r bits⟩
  · intro data f r1 p r2 cb ib c r3 it r4 it2 ind h1 h2 h3 h4 h5 h6
    refine ⟨.sgtin198 ⟨f, p, ind, c, it2,
      String.mk (((sevenBitVals r4 140).filter (· ≠ 0)).map Char.ofNat)⟩, ?_⟩
    simp only [decode_sgtin198, h1, h2, h3, h4, h5, h6, DResult.bind_ok,
      read_string_eq r4 140]

/-- Witness for C10's second part: on a 7-byte truncated SGTIN-198
payload the four leading fields read successfully, so the decode returns
`Ok` (with an empty serial). -/
theorem read_string_total_sgtin198_witness :
    ∃ out, decode_sgtin198 truncated198 = .ok out :=
  read_string_total_sgtin198.2 truncated198 3 ⟨truncated198, 3⟩ 5 ⟨truncated198, 6⟩
    24 20 614141 ⟨truncated198, 30⟩ 712345 ⟨truncated198, 50⟩ 12345 7
    (by decide) (by decide) (by decide) (by decide) (by decide) (by decide)
